import Mathlib

/-!
Shallow embedding of the LoRaSim ADR simulator (`adrSim.py`): the collision
detector (frequency, spreading-factor, power-capture and timing sub-tests,
plus the base-station concurrency check), the LoRa airtime formula, the
sensitivity test applied on packet arrival, the node-placement acceptance
test, and the network-server ADR controller together with its fallback
escalation.  Python floats are modelled as rationals; the controller's
`while` loops are expressed with an explicit iteration bound that the loop
guard provably never exceeds, so every definition stays executable.
-/

/-- Python's `abs`, written out so that it evaluates inside the kernel
(`pyabs x = |x|`, see `pyabs_eq_abs`). -/
def pyabs (x : ℚ) : ℚ :=
  if x < 0 then -x else x

theorem pyabs_eq_abs (x : ℚ) : pyabs x = |x| := by
  rw [pyabs]
  rcases lt_or_le x 0 with h | h
  · rw [if_pos h, abs_of_neg h]
  · rw [if_neg (not_lt.mpr h), abs_of_nonneg h]

/-- Python's two-argument `max` on integers, written out so that it evaluates
inside the kernel (`pymax a b = max a b`, see `pymax_eq_max`). -/
def pymax (a b : ℤ) : ℤ :=
  if a < b then b else a

theorem pymax_eq_max (a b : ℤ) : pymax a b = max a b := by
  rw [pymax]
  rcases lt_or_le a b with h | h
  · rw [if_pos h, max_eq_right h.le]
  · rw [if_neg (not_lt.mpr h), max_eq_left h]

/-- One transmission, with the radio parameters and outcome flags read by the
collision detector (class `myPacket` in the source).  `collided`/`processed`
are 0/1 integers in the source, modelled as `Bool`. -/
structure Packet where
  nodeid : ℤ
  sf : ℕ
  bw : ℚ
  freq : ℚ
  rssi : ℚ
  addTime : ℚ
  rectime : ℚ
  lost : Bool
  collided : Bool
  processed : Bool
deriving DecidableEq

/-- Default field values used to spell out concrete packets in the
evaluation theorems below. -/
def basePacket : Packet :=
  { nodeid := 0, sf := 7, bw := 125, freq := 860000000, rssi := 0,
    addTime := 0, rectime := 0, lost := false, collided := false,
    processed := false }

/-- Frequency-overlap sub-test, transcribed from `frequencyCollision` in the
source.  The source literally compares `p2.freq==500` and `p2.freq==250`
(the second packet's carrier frequency, not its bandwidth) in the first two
guards; that comparison is kept as written. -/
def frequencyCollision (p1 p2 : Packet) : Bool :=
  if pyabs (p1.freq - p2.freq) ≤ 120 ∧ (p1.bw = 500 ∨ p2.freq = 500) then true
  else if pyabs (p1.freq - p2.freq) ≤ 60 ∧ (p1.bw = 250 ∨ p2.freq = 250) then true
  else if pyabs (p1.freq - p2.freq) ≤ 30 then true
  else false

/-- The frequency-overlap condition as the specification words it (and as the
comment above `frequencyCollision` in the source documents it): a 120 kHz
guard if either packet's bandwidth is 500, else 60 kHz if either is 250,
else 30 kHz. -/
def frequencyCollision_spec (p1 p2 : Packet) : Bool :=
  if p1.bw = 500 ∨ p2.bw = 500 then decide (pyabs (p1.freq - p2.freq) ≤ 120)
  else if p1.bw = 250 ∨ p2.bw = 250 then decide (pyabs (p1.freq - p2.freq) ≤ 60)
  else decide (pyabs (p1.freq - p2.freq) ≤ 30)

/-- Spreading-factor sub-test (`sfCollision` in the source). -/
def sfCollision (p1 p2 : Packet) : Bool :=
  p1.sf == p2.sf

/-- The 6 dB threshold of `powerCollision`. -/
def powerThreshold : ℚ := 6

/-- Power-capture sub-test (`powerCollision` in the source): returns the list
of destroyed packets. -/
def powerCollision (p1 p2 : Packet) : List Packet :=
  if pyabs (p1.rssi - p2.rssi) < powerThreshold then [p1, p2]
  else if p1.rssi - p2.rssi < powerThreshold then [p1]
  else [p2]

/-- Timing sub-test (`timingCollision` in the source): `p1` is the freshly
arrived packet, `now` is `env.now` (its arrival instant). -/
def timingCollision (now : ℚ) (p1 p2 : Packet) : Bool :=
  let Npream : ℚ := 8
  let Tpreamb : ℚ := 2 ^ p1.sf / (1 * p1.bw) * (Npream - 5)
  let p2_end : ℚ := p2.addTime + p2.rectime
  let p1_cs : ℚ := now + Tpreamb
  if p1_cs < p2_end then true else false

/-- C1: the frequency-overlap sub-test is claimed to report destructive
overlap exactly when |freq p1 − freq p2| is within a guard of 120 kHz if
either packet's bandwidth is 500, else 60 if either is 250, else 30.  The
code instead tests `p2.freq==500` / `p2.freq==250`, so the guard never
widens on the second packet's bandwidth: with p1 at bandwidth 125 and p2 at
bandwidth 500, frequency difference 100, the code reports no overlap while
the documented condition reports overlap. -/
theorem frequencyCollision_bug_eval :
    frequencyCollision { basePacket with bw := 125, freq := 860000000 }
      { basePacket with nodeid := 1, bw := 500, freq := 860000100 } = false ∧
    frequencyCollision_spec { basePacket with bw := 125, freq := 860000000 }
      { basePacket with nodeid := 1, bw := 500, freq := 860000100 } = true := by
  norm_num [frequencyCollision, frequencyCollision_spec, basePacket, pyabs]

/-- Concrete pair at exactly 6 dB received-power difference. -/
def c2p1 : Packet := basePacket

/-- The weaker packet of the 6 dB pair. -/
def c2p2 : Packet := { basePacket with nodeid := 1, rssi := -6 }

/-- C2 counterexample: at a received-power difference of exactly 6 dB the
power-capture sub-test destroys only the weaker packet, not both — the
both-collide region is the open interval |diff| < 6, so the claimed
inclusive boundary fails. -/
theorem powerCollision_six_dB_cex :
    pyabs (c2p1.rssi - c2p2.rssi) = 6 ∧ powerCollision c2p1 c2p2 = [c2p2] := by
  norm_num [c2p1, c2p2, basePacket, powerCollision, pyabs, powerThreshold]

/-- C2 amended: whenever the received powers differ by at least the 6 dB
threshold — in particular at exactly 6 dB and at 7 dB — only the weaker
packet is destroyed; both packets are destroyed only for differences
strictly below 6 dB. -/
theorem powerCollision_capture_strong (p1 p2 : Packet)
    (h : powerThreshold ≤ pyabs (p1.rssi - p2.rssi)) :
    powerCollision p1 p2 = [if p1.rssi ≤ p2.rssi then p1 else p2] := by
  rw [powerCollision, if_neg (not_lt.mpr h)]
  rw [pyabs_eq_abs] at h
  have h6 : (6 : ℚ) ≤ |p1.rssi - p2.rssi| := h
  rcases abs_cases (p1.rssi - p2.rssi) with ⟨habs, _⟩ | ⟨habs, _⟩
  · have hge : 6 ≤ p1.rssi - p2.rssi := by rw [habs] at h6; exact h6
    have hnle : ¬ (p1.rssi ≤ p2.rssi) := by linarith
    rw [if_neg (by show ¬ (_ < powerThreshold); rw [powerThreshold]; linarith),
      if_neg hnle]
  · have hle : p1.rssi - p2.rssi ≤ -6 := by rw [habs] at h6; linarith
    have hyes : p1.rssi ≤ p2.rssi := by linarith
    rw [if_pos (by show _ < powerThreshold; rw [powerThreshold]; linarith),
      if_pos hyes]

/-- Stronger packet of a 7 dB pair, used to witness `powerCollision_capture_strong`. -/
def c2w1 : Packet := basePacket

/-- Weaker packet of the 7 dB pair. -/
def c2w2 : Packet := { basePacket with nodeid := 1, rssi := -7 }

/-- Witness for C2's amended theorem at a concrete 7 dB pair. -/
theorem powerCollision_capture_strong_witness :
    powerThreshold ≤ pyabs (c2w1.rssi - c2w2.rssi) ∧
    powerCollision c2w1 c2w2 = [if c2w1.rssi ≤ c2w2.rssi then c2w1 else c2w2] :=
  ⟨by norm_num [c2w1, c2w2, basePacket, pyabs, powerThreshold],
   powerCollision_capture_strong c2w1 c2w2
     (by norm_num [c2w1, c2w2, basePacket, pyabs, powerThreshold])⟩

/-- Maximum number of packets the base station can process at the same time
(`maxBSReceives` in the source). -/
def maxBSReceives : ℕ := 8

/-- Number of in-flight packets currently marked processed (the `processing`
counter at the top of `checkcollision`). -/
def countProcessed (atBS : List Packet) : ℕ :=
  (atBS.filter (fun q => q.processed)).length

/-- Whether the in-flight packet `other` destroys the freshly arrived
`packet` (the contribution of one loop iteration of `checkcollision` to its
`col` flag). -/
def hitsPacket (now : ℚ) (packet other : Packet) (fullColl : Bool) : Bool :=
  decide (other.nodeid ≠ packet.nodeid) &&
  frequencyCollision packet other && sfCollision packet other &&
  (if fullColl then
    timingCollision now packet other &&
      decide (packet ∈ powerCollision packet other)
  else true)

/-- How one loop iteration of `checkcollision` updates the in-flight packet
`other` (its `collided` flag may be set). -/
def markOther (now : ℚ) (packet other : Packet) (fullColl : Bool) : Packet :=
  if decide (other.nodeid ≠ packet.nodeid) &&
      frequencyCollision packet other && sfCollision packet other then
    if fullColl then
      if timingCollision now packet other then
        if other ∈ powerCollision packet other then
          { other with collided := true }
        else other
      else other
    else { other with collided := true }
  else other

/-- `checkcollision` from the source: sets the arriving packet's `processed`
flag from the concurrency limit, marks the collided in-flight packets, and
returns the `col` flag (whether the arriving packet itself is destroyed).
The Python loop mutates each `other` independently and accumulates `col`
across iterations, rendered here as a `map` and an `any`. -/
def checkcollision (now : ℚ) (packet0 : Packet) (atBS : List Packet)
    (fullColl : Bool) : Packet × List Packet × Bool :=
  let processing := countProcessed atBS
  let packet : Packet :=
    if maxBSReceives < processing then { packet0 with processed := false }
    else { packet0 with processed := true }
  (packet,
   atBS.map (fun other => markOther now packet other fullColl),
   atBS.any (fun other => hitsPacket now packet other fullColl))

/-- Sensitivity table (`sensi` in the source, rows `sf7` … `sf12`; column 0
is the spreading factor, columns 1–3 the thresholds for bandwidth 125, 250
and 500 kHz). -/
def sensi : List (List ℚ) :=
  [[7, -126.5, -124.25, -120.75],
   [8, -127.25, -126.75, -124.0],
   [9, -131.25, -128.25, -127.5],
   [10, -132.75, -130.25, -128.75],
   [11, -134.5, -132.75, -128.75],
   [12, -133.25, -132.25, -132.25]]

/-- The sensitivity lookup `sensi[sf - 7, [125,250,500].index(bw) + 1]`
performed in `transmit` before a packet is admitted. -/
def sensitivity (sf : ℕ) (bw : ℚ) : ℚ :=
  (sensi.getD (sf - 7) []).getD (([125, 250, 500] : List ℚ).indexOf bw + 1) 0

/-- The arrival step of `transmit` (lines around the sensitivity check): if
the received power is below sensitivity the packet is only marked lost;
otherwise it goes through `checkcollision`, its `collided` flag is set from
the returned `col`, its `addTime` is stamped, and it is appended to the
in-flight list. -/
def transmitArrival (now : ℚ) (p : Packet) (atBS : List Packet)
    (fullColl : Bool) : Packet × List Packet :=
  if p.rssi < sensitivity p.sf p.bw then
    ({ p with lost := true }, atBS)
  else
    let p1 : Packet := { p with lost := false }
    let r := checkcollision now p1 atBS fullColl
    let p3 : Packet := { r.1 with collided := r.2.2, addTime := now }
    (p3, r.2.1 ++ [p3])

theorem timingCollision_false (now : ℚ) (p1 p2 : Packet)
    (h : p2.addTime + p2.rectime ≤ now + 2 ^ p1.sf / (1 * p1.bw) * (8 - 5)) :
    timingCollision now p1 p2 = false := by
  simp only [timingCollision]
  rw [if_neg (not_lt.mpr h)]

theorem hitsPacket_false_of_timing (now : ℚ) (pk q : Packet)
    (h : timingCollision now pk q = false) :
    hitsPacket now pk q true = false := by
  rw [hitsPacket]
  simp [h]

/-- Freshly arrived packet of the C3 counterexample. -/
def c3pa : Packet := basePacket

/-- In-flight competitor of the C3 counterexample: same frequency and
spreading factor, equal received power, and it ends long after the arriving
packet's critical preamble window. -/
def c3pb : Packet := { basePacket with nodeid := 1, rectime := 1000 }

/-- C3 counterexample: the arriving packet's critical window ends strictly
before the competitor's end time (384/125 < 1000), the frequency and
rate sub-tests pass, and the competitor nevertheless destroys the arriving
packet (equal powers, so `powerCollision` returns both): the claimed
implication is inverted with respect to the code. -/
theorem timing_destroys_early_window_cex :
    (0 : ℚ) + 2 ^ c3pa.sf / (1 * c3pa.bw) * (8 - 5) <
      c3pb.addTime + c3pb.rectime ∧
    hitsPacket 0 c3pa c3pb true = true := by
  norm_num [c3pa, c3pb, basePacket, hitsPacket, frequencyCollision,
    sfCollision, timingCollision, powerCollision, pyabs, powerThreshold]

/-- C3 amended: in full-capture mode a freshly arrived packet whose critical
preamble window (the first `8 − 5` symbol durations after its arrival
instant `now`) ends at or after the end time of every in-flight packet is
never destroyed — `checkcollision` returns `col = false` regardless of the
received powers ("saved by the preamble").  The claim as stated had the
inequality inverted. -/
theorem checkcollision_saved_by_preamble (now : ℚ) (p : Packet)
    (atBS : List Packet)
    (h : ∀ q ∈ atBS, q.addTime + q.rectime ≤ now + 2 ^ p.sf / (1 * p.bw) * (8 - 5)) :
    (checkcollision now p atBS true).2.2 = false := by
  simp only [checkcollision]
  rw [List.any_eq_false]
  intro q hq
  rw [Bool.not_eq_true]
  apply hitsPacket_false_of_timing
  apply timingCollision_false
  have e1 : (if maxBSReceives < countProcessed atBS then
      { p with processed := false } else { p with processed := true }).sf = p.sf := by
    split <;> rfl
  have e2 : (if maxBSReceives < countProcessed atBS then
      { p with processed := false } else { p with processed := true }).bw = p.bw := by
    split <;> rfl
  rw [e1, e2]
  exact h q hq

/-- In-flight competitor for the C3 witness: it ended before the witness
packet arrived. -/
def c3wq : Packet := { basePacket with nodeid := 1, addTime := -1000, rectime := 10 }

/-- Witness for C3's amended theorem: one competitor that ended in the past,
and the arriving packet survives. -/
theorem checkcollision_saved_by_preamble_witness :
    (∀ q ∈ [c3wq], q.addTime + q.rectime ≤
      (0 : ℚ) + 2 ^ basePacket.sf / (1 * basePacket.bw) * (8 - 5)) ∧
    (checkcollision 0 basePacket [c3wq] true).2.2 = false := by
  refine ⟨?_, checkcollision_saved_by_preamble 0 basePacket [c3wq] ?_⟩ <;>
  · intro q hq
    rw [List.mem_singleton] at hq
    subst hq
    norm_num [c3wq, basePacket]

/-- In-flight packet template for the C4 evaluation: already marked
processed, at a frequency far from every other packet. -/
def c4other (i : ℤ) (f : ℚ) : Packet :=
  { basePacket with nodeid := i, freq := f, processed := true }

/-- Eight in-flight packets, all already marked processed. -/
def bs8 : List Packet :=
  [c4other 1 860000000, c4other 2 860001000, c4other 3 860002000,
   c4other 4 860003000, c4other 5 860004000, c4other 6 860005000,
   c4other 7 860006000, c4other 8 860007000]

/-- The ninth packet arriving while eight are already being processed. -/
def c4new : Packet := { basePacket with nodeid := 9, freq := 860100000 }

/-- C4: the claim (and the comment defining `maxBSReceives` in the source)
says at most 8 packets are concurrently processed, every packet beyond the
limit being marked un-processed.  The admission test is
`processing > maxBSReceives`, an off-by-one: with eight in-flight packets
already processed, a ninth arriving packet is still marked processed, so
nine packets are concurrently marked processed at the receiver. -/
theorem checkcollision_nine_processed :
    countProcessed bs8 = maxBSReceives ∧
    (transmitArrival 0 c4new bs8 true).1.processed = true ∧
    maxBSReceives < countProcessed ((transmitArrival 0 c4new bs8 true).2) := by
  norm_num [bs8, c4other, c4new, basePacket, countProcessed, transmitArrival,
    checkcollision, markOther, hitsPacket, sensitivity, sensi,
    List.indexOf, List.findIdx, List.findIdx.go, List.getD,
    frequencyCollision, sfCollision, timingCollision, powerCollision,
    pyabs, powerThreshold, maxBSReceives]

/-- C8: a packet whose received power is below the sensitivity entry for its
rate and bandwidth is marked lost and is never inserted into the in-flight
list: the list (and so every other packet's flags) is returned unchanged,
and the packet's own `collided` flag is left exactly as it was (`false` at
packet creation). -/
theorem lost_packet_never_inserted (now : ℚ) (p : Packet) (atBS : List Packet)
    (fc : Bool) (h : p.rssi < sensitivity p.sf p.bw) :
    (transmitArrival now p atBS fc).2 = atBS ∧
    (transmitArrival now p atBS fc).1.lost = true ∧
    (transmitArrival now p atBS fc).1.collided = p.collided := by
  simp only [transmitArrival]
  rw [if_pos h]
  exact ⟨rfl, rfl, rfl⟩

/-- The below-sensitivity packet of the C8 witness. -/
def c8p : Packet := { basePacket with rssi := -200 }

/-- An unrelated in-flight packet for the C8 witness. -/
def c8q : Packet := { basePacket with nodeid := 1, processed := true }

/-- Witness for C8 at a concrete packet 200 dBm below sensitivity, with one
packet in flight. -/
theorem lost_packet_never_inserted_witness :
    c8p.rssi < sensitivity c8p.sf c8p.bw ∧
    (transmitArrival 0 c8p [c8q] true).2 = [c8q] ∧
    (transmitArrival 0 c8p [c8q] true).1.lost = true ∧
    (transmitArrival 0 c8p [c8q] true).1.collided = c8p.collided := by
  have h : c8p.rssi < sensitivity c8p.sf c8p.bw := by
    norm_num [c8p, basePacket, sensitivity, sensi,
      List.indexOf, List.findIdx, List.findIdx.go, List.getD]
  exact ⟨h, lost_packet_never_inserted 0 c8p [c8q] true h⟩

/-- Squared distance between two positions.  The source computes
`np.sqrt((|n.x-posx|)**2 + (|n.y-posy|)**2)` and tests `dist >= 10`; over
the rationals we test the equivalent `100 ≤ distSq` (both sides of the
source comparison are nonnegative, so squaring preserves it). -/
def distSq (a b : ℚ × ℚ) : ℚ :=
  (a.1 - b.1) ^ 2 + (a.2 - b.2) ^ 2

/-- Whether the placement loop of `myNode.__init__` accepts a candidate
position: with no previously placed node the candidate is accepted
unconditionally; otherwise the loop sets `found = 1` (and the position) as
soon as it meets one previously placed node at distance ≥ 10 — nodes closer
than 10 only bump the retry counter, they do not retract the acceptance. -/
def nodePlacementAccepts (existing : List (ℚ × ℚ)) (cand : ℚ × ℚ) : Bool :=
  match existing with
  | [] => true
  | _ :: _ => existing.any (fun n => decide (100 ≤ distSq n cand))

/-- The acceptance condition the claim (and the comment above the placement
loop: minimum distance between each pair of nodes) describes: every
previously placed node is at distance ≥ 10. -/
def nodePlacementAccepts_spec (existing : List (ℚ × ℚ)) (cand : ℚ × ℚ) : Bool :=
  existing.all (fun n => decide (100 ≤ distSq n cand))

/-- C7: the claim says a candidate position is accepted only if its distance
to every previously placed node is at least 10.  The code accepts as soon
as a single previously placed node is at distance ≥ 10: with nodes at
(0,0) and (20,0), the candidate (5,0) — distance only 5 from the first
node — is accepted, violating the minimum-separation constraint the
placement comment promises. -/
theorem nodePlacement_any_vs_all_eval :
    nodePlacementAccepts [((0 : ℚ), (0 : ℚ)), (20, 0)] (5, 0) = true ∧
    nodePlacementAccepts_spec [((0 : ℚ), (0 : ℚ)), (20, 0)] (5, 0) = false := by
  norm_num [nodePlacementAccepts, nodePlacementAccepts_spec, distSq]

/-- `H` flag of `airtime`: implicit header, forced only at spreading
factor 6. -/
def Hbit (sf : ℕ) : ℕ :=
  if sf = 6 then 1 else 0

/-- `DE` flag of `airtime`: low-data-rate optimization, mandated at
bandwidth 125 with spreading factor 11 or 12. -/
def DEbit (sf : ℕ) (bw : ℚ) : ℕ :=
  if bw = 125 ∧ (sf = 11 ∨ sf = 12) then 1 else 0

/-- `payloadSymbNB` of `airtime` in the source:
`8 + max(ceil((8 pl − 4 sf + 28 + 16 − 20 H) / (4 (sf − 2 DE))) * (cr + 4), 0)`. -/
def payloadSymbNB (sf cr pl : ℕ) (bw : ℚ) : ℤ :=
  8 + pymax (⌈(8 * (pl : ℚ) - 4 * (sf : ℚ) + 28 + 16 - 20 * (Hbit sf : ℚ)) /
    (4 * ((sf : ℚ) - 2 * (DEbit sf bw : ℚ)))⌉ * ((cr : ℤ) + 4)) 0

/-- LoRa airtime formula (`airtime` in the source): preamble of
`(8 + 4.25)` symbols plus `payloadSymbNB` payload symbols, each symbol
lasting `2^sf / bw`. -/
def airtime (sf cr pl : ℕ) (bw : ℚ) : ℚ :=
  let Npream : ℚ := 8
  let Tsym : ℚ := 2 ^ sf / bw
  let Tpream : ℚ := (Npream + 4.25) * Tsym
  let Tpayload : ℚ := (payloadSymbNB sf cr pl bw : ℚ) * Tsym
  Tpream + Tpayload

theorem dpos (sf : ℕ) (bw : ℚ) (h7 : 7 ≤ sf) :
    0 < 4 * ((sf : ℚ) - 2 * (DEbit sf bw : ℚ)) := by
  rw [DEbit]
  split
  next h =>
    rcases h.2 with h1 | h1 <;> rw [h1] <;> norm_num
  next h =>
    have : (7 : ℚ) ≤ (sf : ℚ) := by exact_mod_cast h7
    push_cast
    linarith

theorem payloadSymbNB_eq (sf cr pl : ℕ) (bw : ℚ) (h7 : 7 ≤ sf) (h12 : sf ≤ 12)
    (hpl : 1 ≤ pl) :
    payloadSymbNB sf cr pl bw =
      8 + ⌈(8 * (pl : ℚ) - 4 * (sf : ℚ) + 28 + 16 - 20 * (Hbit sf : ℚ)) /
        (4 * ((sf : ℚ) - 2 * (DEbit sf bw : ℚ)))⌉ * ((cr : ℤ) + 4) := by
  have hd := dpos sf bw h7
  have hH : Hbit sf = 0 := by
    rw [Hbit, if_neg]
    omega
  have hu : 0 < 8 * (pl : ℚ) - 4 * (sf : ℚ) + 28 + 16 - 20 * (Hbit sf : ℚ) := by
    rw [hH]
    have h1 : (1 : ℚ) ≤ (pl : ℚ) := by exact_mod_cast hpl
    have h2 : (sf : ℚ) ≤ 12 := by exact_mod_cast h12
    push_cast
    linarith
  have hc : 0 < ⌈(8 * (pl : ℚ) - 4 * (sf : ℚ) + 28 + 16 - 20 * (Hbit sf : ℚ)) /
      (4 * ((sf : ℚ) - 2 * (DEbit sf bw : ℚ)))⌉ :=
    Int.ceil_pos.mpr (div_pos hu hd)
  rw [payloadSymbNB, pymax_eq_max]
  congr 1
  apply max_eq_left
  exact mul_nonneg hc.le (by positivity)

theorem dstep (sf : ℕ) (h7 : 7 ≤ sf) (h11 : sf ≤ 11) (bw : ℚ) :
    32 ≤ 4 * (((sf + 1 : ℕ) : ℚ) - 2 * (DEbit (sf + 1) bw : ℚ)) ∧
    4 * (((sf + 1 : ℕ) : ℚ) - 2 * (DEbit (sf + 1) bw : ℚ)) ≤
      2 * (4 * ((sf : ℚ) - 2 * (DEbit sf bw : ℚ))) := by
  by_cases hb : bw = 125
  · interval_cases sf <;> norm_num [DEbit, hb]
  · have e0 : ∀ m : ℕ, DEbit m bw = 0 := by
      intro m
      rw [DEbit, if_neg]
      intro hc
      exact hb hc.1
    rw [e0, e0]
    have h7q : (7 : ℚ) ≤ (sf : ℚ) := by exact_mod_cast h7
    push_cast
    constructor <;> linarith

theorem ceil_capture (u d d' : ℚ) (k : ℤ) (hu4 : 4 < u) (hk5 : 5 ≤ k)
    (hk8 : k ≤ 8) (hd : 0 < d) (hd32 : 32 ≤ d') (hdd : d' ≤ 2 * d) :
    ⌈u / d⌉ * k ≤ 2 * (⌈(u - 4) / d'⌉ * k) + 9 := by
  have hd' : (0 : ℚ) < d' := by linarith
  have hu0 : (0 : ℚ) < u := by linarith
  have hkq5 : (5 : ℚ) ≤ (k : ℚ) := by exact_mod_cast hk5
  have hkq8 : ((k : ℚ)) ≤ 8 := by exact_mod_cast hk8
  have hkpos : (0 : ℚ) < (k : ℚ) := by linarith
  have h1 : (⌈u / d⌉ : ℚ) < u / d + 1 := Int.ceil_lt_add_one _
  have h2 : u / d ≤ 2 * u / d' := by
    rw [div_le_div_iff hd hd']
    nlinarith
  have h3 : (u - 4) / d' ≤ (⌈(u - 4) / d'⌉ : ℚ) := Int.le_ceil _
  have f1 : (⌈u / d⌉ : ℚ) * k < (u / d) * k + k := by nlinarith
  have f2 : (u / d) * k ≤ (2 * u / d') * k := by nlinarith
  have e1 : (2 * u / d') * (k : ℚ) = 2 * (((u - 4) / d') * k) + (8 * k) / d' := by
    field_simp
    ring
  have f3 : 2 * (((u - 4) / d') * (k : ℚ)) ≤ 2 * ((⌈(u - 4) / d'⌉ : ℚ) * k) := by
    nlinarith
  have f4 : (8 * (k : ℚ)) / d' ≤ 2 := by
    rw [div_le_iff hd']
    nlinarith
  have hmain : ((⌈u / d⌉ * k : ℤ) : ℚ) < ((2 * (⌈(u - 4) / d'⌉ * k) + 10 : ℤ) : ℚ) := by
    push_cast
    linarith
  have hz : (⌈u / d⌉ * k : ℤ) < 2 * (⌈(u - 4) / d'⌉ * k) + 10 := by
    exact_mod_cast hmain
  omega

theorem payloadSymbNB_succ_bound (sf cr pl : ℕ) (bw : ℚ) (h7 : 7 ≤ sf)
    (h11 : sf ≤ 11) (hcr1 : 1 ≤ cr) (hcr4 : cr ≤ 4) (hpl : 1 ≤ pl) :
    payloadSymbNB sf cr pl bw ≤ 2 * payloadSymbNB (sf + 1) cr pl bw + 1 := by
  rw [payloadSymbNB_eq sf cr pl bw h7 (by omega) hpl,
    payloadSymbNB_eq (sf + 1) cr pl bw (by omega) (by omega) hpl]
  have hH : Hbit sf = 0 := by rw [Hbit, if_neg]; omega
  have hH' : Hbit (sf + 1) = 0 := by rw [Hbit, if_neg]; omega
  have hnum' : 8 * (pl : ℚ) - 4 * ((sf + 1 : ℕ) : ℚ) + 28 + 16 -
      20 * (Hbit (sf + 1) : ℚ) =
      (8 * (pl : ℚ) - 4 * (sf : ℚ) + 28 + 16 - 20 * (Hbit sf : ℚ)) - 4 := by
    rw [hH, hH']
    push_cast
    ring
  rw [hnum']
  obtain ⟨hd32, hdd⟩ := dstep sf h7 h11 bw
  have hkey := ceil_capture
    (8 * (pl : ℚ) - 4 * (sf : ℚ) + 28 + 16 - 20 * (Hbit sf : ℚ))
    (4 * ((sf : ℚ) - 2 * (DEbit sf bw : ℚ)))
    (4 * (((sf + 1 : ℕ) : ℚ) - 2 * (DEbit (sf + 1) bw : ℚ)))
    ((cr : ℤ) + 4)
    (by
      rw [hH]
      have h1 : (1 : ℚ) ≤ (pl : ℚ) := by exact_mod_cast hpl
      have h2 : (sf : ℚ) ≤ 11 := by exact_mod_cast h11
      push_cast
      linarith)
    (by exact_mod_cast Nat.succ_le_succ (by omega : 4 ≤ cr + 3))
    (by exact_mod_cast Nat.succ_le_succ (by omega : cr + 3 ≤ 7))
    (dpos sf bw h7) hd32 hdd
  omega

theorem airtime_succ_lt (sf cr pl : ℕ) (bw : ℚ) (hbwpos : 0 < bw)
    (h7 : 7 ≤ sf) (h11 : sf ≤ 11) (hcr1 : 1 ≤ cr) (hcr4 : cr ≤ 4)
    (hpl : 1 ≤ pl) :
    airtime sf cr pl bw < airtime (sf + 1) cr pl bw := by
  simp only [airtime]
  have hT : (0 : ℚ) < 2 ^ sf / bw := by positivity
  have h2T : (2 : ℚ) ^ (sf + 1) / bw = 2 * (2 ^ sf / bw) := by
    rw [pow_succ]
    ring
  rw [h2T]
  have hNb : ((payloadSymbNB sf cr pl bw : ℤ) : ℚ) ≤
      2 * ((payloadSymbNB (sf + 1) cr pl bw : ℤ) : ℚ) + 1 := by
    exact_mod_cast payloadSymbNB_succ_bound sf cr pl bw h7 h11 hcr1 hcr4 hpl
  nlinarith [mul_le_mul_of_nonneg_right hNb hT.le, hT]

theorem airtime_pl_mono (sf cr pl : ℕ) (bw : ℚ) (hbwpos : 0 < bw)
    (h7 : 7 ≤ sf) :
    airtime sf cr pl bw ≤ airtime sf cr (pl + 1) bw := by
  have hd := dpos sf bw h7
  have hN : payloadSymbNB sf cr pl bw ≤ payloadSymbNB sf cr (pl + 1) bw := by
    rw [payloadSymbNB, payloadSymbNB, pymax_eq_max, pymax_eq_max]
    apply add_le_add_left
    apply max_le_max _ le_rfl
    apply mul_le_mul_of_nonneg_right _ (by positivity)
    apply Int.ceil_le_ceil
    apply div_le_div_of_nonneg_right _ hd.le
    push_cast
    linarith
  simp only [airtime]
  have hT : (0 : ℚ) < 2 ^ sf / bw := by positivity
  have hNq : ((payloadSymbNB sf cr pl bw : ℤ) : ℚ) ≤
      ((payloadSymbNB sf cr (pl + 1) bw : ℤ) : ℚ) := by exact_mod_cast hN
  nlinarith [mul_le_mul_of_nonneg_right hNq hT.le]

/-- C9 counterexample: the airtime function is not strictly increasing in
the payload length: at rate 12, coding rate 1, bandwidth 500, payloads of
1 and 2 bytes give identical airtimes (the payload-symbol ceiling does not
advance). -/
theorem airtime_pl_plateau : airtime 12 1 1 500 = airtime 12 1 2 500 := by
  have c1 : ⌈(1 : ℚ) / 12⌉ = 1 := by
    rw [Int.ceil_eq_iff] <;> norm_num
  have c2 : ⌈(1 : ℚ) / 4⌉ = 1 := by
    rw [Int.ceil_eq_iff] <;> norm_num
  norm_num [airtime, payloadSymbNB, Hbit, DEbit, pymax, c1, c2]

/-- C9 amended: for valid arguments (rate 7–12, coding-rate indicator 1–4,
payload length ≥ 1 byte, bandwidth 125/250/500), the airtime function is
nondecreasing — not strictly increasing — in the payload length, and
strictly increasing in the modulation rate. -/
theorem airtime_mono_props (sf cr pl : ℕ) (bw : ℚ)
    (hbw : bw = 125 ∨ bw = 250 ∨ bw = 500) (h7 : 7 ≤ sf) (h12 : sf ≤ 12)
    (hcr1 : 1 ≤ cr) (hcr4 : cr ≤ 4) (hpl : 1 ≤ pl) :
    airtime sf cr pl bw ≤ airtime sf cr (pl + 1) bw ∧
    (sf ≤ 11 → airtime sf cr pl bw < airtime (sf + 1) cr pl bw) := by
  have hbwpos : 0 < bw := by
    rcases hbw with h | h | h <;> rw [h] <;> norm_num
  exact ⟨airtime_pl_mono sf cr pl bw hbwpos h7,
    fun h11 => airtime_succ_lt sf cr pl bw hbwpos h7 h11 hcr1 hcr4 hpl⟩

/-- Witness for C9's amended theorem at rate 7, coding rate 1, payload 20,
bandwidth 125. -/
theorem airtime_mono_props_witness :
    airtime 7 1 20 125 ≤ airtime 7 1 21 125 ∧
    (7 ≤ 11 → airtime 7 1 20 125 < airtime 8 1 20 125) :=
  airtime_mono_props 7 1 20 125 (by norm_num) (by norm_num) (by norm_num)
    (by norm_num) (by norm_num) (by norm_num)

/-- Required-SNR table (`snr_threshold` in the source), indexed rate 7 →
entry 0 … rate 12 → entry 5. -/
def snr_threshold : List ℚ :=
  [-7.5, -10.0, -12.5, -15.0, -17.5, -20.0]

/-- First `while` loop of `ns_adr_algorithm`:
`while nstep > 0 and sf > min_sf: sf -= 1; nstep -= 1` (with `min_sf = 7`).
The extra `fuel` argument only bounds the iteration count so the recursion
is structural: `sf` decreases by one per iteration and the guard needs
`7 < sf`, so `(sf - 7).toNat` iterations always suffice (see `sfLoop`). -/
def sfLoopF : ℕ → ℤ → ℚ → ℤ × ℚ
  | 0, sf, nstep => (sf, nstep)
  | fuel + 1, sf, nstep =>
    if 0 < nstep ∧ 7 < sf then sfLoopF fuel (sf - 1) (nstep - 1)
    else (sf, nstep)

/-- The first loop of `ns_adr_algorithm`, run to guard exhaustion. -/
def sfLoop (sf : ℤ) (nstep : ℚ) : ℤ × ℚ :=
  sfLoopF (sf - 7).toNat sf nstep

/-- Second `while` loop of `ns_adr_algorithm`:
`while nstep > 0 and txpow > min_tx_power: txpow -= 3; nstep -= 1` (with
`min_tx_power = 2`).  `txpow` decreases by three per iteration and the
guard needs `2 < txpow`, so `(txpow - 2).toNat` iterations always
suffice. -/
def txDownLoopF : ℕ → ℤ → ℚ → ℤ × ℚ
  | 0, txpow, nstep => (txpow, nstep)
  | fuel + 1, txpow, nstep =>
    if 0 < nstep ∧ 2 < txpow then txDownLoopF fuel (txpow - 3) (nstep - 1)
    else (txpow, nstep)

/-- The second loop of `ns_adr_algorithm`, run to guard exhaustion. -/
def txDownLoop (txpow : ℤ) (nstep : ℚ) : ℤ × ℚ :=
  txDownLoopF (txpow - 2).toNat txpow nstep

/-- Third `while` loop of `ns_adr_algorithm`:
`while nstep < 0 and txpow < max_tx_power: txpow += 3; nstep += 1` (with
`max_tx_power = 14`).  `txpow` increases by three per iteration and the
guard needs `txpow < 14`, so `(14 - txpow).toNat` iterations always
suffice. -/
def txUpLoopF : ℕ → ℤ → ℚ → ℤ × ℚ
  | 0, txpow, nstep => (txpow, nstep)
  | fuel + 1, txpow, nstep =>
    if nstep < 0 ∧ txpow < 14 then txUpLoopF fuel (txpow + 3) (nstep + 1)
    else (txpow, nstep)

/-- The third loop of `ns_adr_algorithm`, run to guard exhaustion. -/
def txUpLoop (txpow : ℤ) (nstep : ℚ) : ℤ × ℚ :=
  txUpLoopF (14 - txpow).toNat txpow nstep

/-- The network-server ADR controller (`ns_adr_algorithm` in the source).
The source indexes `snr_threshold[sf - 7]`; the `getD` default is never
reached for the spreading factors 7–12 the simulator produces. -/
def ns_adr_algorithm (sf txpow : ℤ) (m_snr : ℚ) : ℤ × ℤ :=
  let req_snr : ℚ := snr_threshold.getD (sf - 7).toNat 0
  let margin_snr : ℚ := m_snr - req_snr
  let nstep : ℚ := margin_snr / 3
  let s1 := sfLoop sf nstep
  let t1 := txDownLoop txpow s1.2
  let t2 := txUpLoop t1.1 t1.2
  (s1.1, t2.1)

/-- `enableAdr` flag from the source (constant 1). -/
def enableAdr : ℕ := 1

/-- `adr_ack_limit` from the source. -/
def adr_ack_limit : ℕ := 16

/-- The per-transmission parameter update at the end of `transmit` (the
block after the SNR history is updated): when ADR is enabled and the SNR
window has exactly reached its full size of 20, run `ns_adr_algorithm` and
then the simplified device-side fallback (`adr_ack_cnt`); otherwise draw
rate and power uniformly at random — the random draws enter here as the
`randSf`/`randTx` parameters, and the failure counter is left untouched.
`failed` is `node.packet.lost or node.packet.collided == 1`.  Returns
(new sf, new txpow, new adr_ack_cnt). -/
def adrSettle (windowLen : ℕ) (psf ptx : ℤ) (m_snr : ℚ) (failed : Bool)
    (cnt : ℕ) (randSf randTx : ℤ) : ℤ × ℤ × ℕ :=
  if enableAdr = 1 ∧ windowLen = 20 then
    let rec_sf := (ns_adr_algorithm psf ptx m_snr).1
    let rec_tx := (ns_adr_algorithm psf ptx m_snr).2
    if failed then
      if adr_ack_limit < cnt + 1 ∧ rec_sf < 12 then (rec_sf + 1, rec_tx, cnt + 1)
      else (rec_sf, rec_tx, cnt + 1)
    else (rec_sf, rec_tx, 0)
  else (randSf, randTx, cnt)

theorem sfLoopF_bounds (f : ℕ) : ∀ (sf : ℤ) (n : ℚ), 7 ≤ sf →
    7 ≤ (sfLoopF f sf n).1 ∧ (sfLoopF f sf n).1 ≤ sf := by
  induction f with
  | zero =>
    intro sf n h
    exact ⟨h, le_refl _⟩
  | succ f ih =>
    intro sf n h
    simp only [sfLoopF]
    split
    next hg =>
      obtain ⟨h1, h2⟩ := ih (sf - 1) (n - 1) (by omega)
      exact ⟨h1, by omega⟩
    next =>
      exact ⟨h, le_refl _⟩

theorem txDownLoopF_bounds (f : ℕ) : ∀ (t : ℤ) (n : ℚ), 0 ≤ t →
    0 ≤ (txDownLoopF f t n).1 ∧ (txDownLoopF f t n).1 ≤ t := by
  induction f with
  | zero =>
    intro t n h
    exact ⟨h, le_refl _⟩
  | succ f ih =>
    intro t n h
    simp only [txDownLoopF]
    split
    next hg =>
      obtain ⟨h1, h2⟩ := ih (t - 3) (n - 1) (by omega)
      exact ⟨h1, by omega⟩
    next =>
      exact ⟨h, le_refl _⟩

theorem txUpLoopF_bounds (f : ℕ) : ∀ (t : ℤ) (n : ℚ), t ≤ 16 →
    (txUpLoopF f t n).1 ≤ 16 ∧ t ≤ (txUpLoopF f t n).1 := by
  induction f with
  | zero =>
    intro t n h
    exact ⟨h, le_refl _⟩
  | succ f ih =>
    intro t n h
    simp only [txUpLoopF]
    split
    next hg =>
      obtain ⟨h1, h2⟩ := ih (t + 3) (n + 1) (by omega)
      exact ⟨h1, by omega⟩
    next =>
      exact ⟨h, le_refl _⟩

theorem ns_adr_sf_bounds (sf txpow : ℤ) (m : ℚ) (h7 : 7 ≤ sf) :
    7 ≤ (ns_adr_algorithm sf txpow m).1 ∧ (ns_adr_algorithm sf txpow m).1 ≤ sf := by
  simp only [ns_adr_algorithm, sfLoop]
  exact sfLoopF_bounds _ sf _ h7

theorem ns_adr_tx_bounds (sf txpow : ℤ) (m : ℚ) (h0 : 0 ≤ txpow)
    (h16 : txpow ≤ 16) :
    0 ≤ (ns_adr_algorithm sf txpow m).2 ∧ (ns_adr_algorithm sf txpow m).2 ≤ 16 := by
  simp only [ns_adr_algorithm, txDownLoop, txUpLoop]
  obtain ⟨hd0, hdle⟩ := txDownLoopF_bounds (txpow - 2).toNat txpow
    ((sfLoop sf ((m - snr_threshold.getD (sf - 7).toNat 0) / 3)).2) h0
  obtain ⟨hu16, hule⟩ := txUpLoopF_bounds
    (14 - (txDownLoopF (txpow - 2).toNat txpow
      ((sfLoop sf ((m - snr_threshold.getD (sf - 7).toNat 0) / 3)).2)).1).toNat
    (txDownLoopF (txpow - 2).toNat txpow
      ((sfLoop sf ((m - snr_threshold.getD (sf - 7).toNat 0) / 3)).2)).1
    (txDownLoopF (txpow - 2).toNat txpow
      ((sfLoop sf ((m - snr_threshold.getD (sf - 7).toNat 0) / 3)).2)).2
    (le_trans hdle h16)
  exact ⟨le_trans hd0 hule, hu16⟩

/-- C6 counterexample: from the valid state rate 7, power 4 dBm (bootstrap
draws any integer in [2,14]) and a mean SNR of −4.5 dB (margin 3 dB over
the −7.5 dB requirement, one step), the controller returns power 1 dBm,
outside the claimed [2,14] range: the decrement loop tests `txpow > 2`
before subtracting 3, so it can land below the floor. -/
theorem ns_adr_power_below_floor_cex :
    ns_adr_algorithm 7 4 (-9/2) = (7, 1) ∧
    (ns_adr_algorithm 7 4 (-9/2)).2 < 2 := by
  constructor <;>
    norm_num [ns_adr_algorithm, snr_threshold, sfLoop, txDownLoop, txUpLoop,
      sfLoopF, txDownLoopF, txUpLoopF, List.getD]

/-- C6 amended: over the parameter update of `transmit` (controller plus
fallback, or the bootstrap redraw), the modulation rate stays an integer in
[7,12], but the transmit power is only guaranteed to stay in [0,16]: the
±3 dB steps guarded by `txpow > 2` / `txpow < 14` can overshoot the
[2,14] range by up to 2 dBm on either side. -/
theorem adr_state_ranges (wl : ℕ) (psf ptx : ℤ) (m : ℚ) (fl : Bool)
    (cnt : ℕ) (rs rt : ℤ) (h1 : 7 ≤ psf) (h2 : psf ≤ 12) (h3 : 0 ≤ ptx)
    (h4 : ptx ≤ 16) (h5 : 7 ≤ rs) (h6 : rs ≤ 12) (h7 : 2 ≤ rt)
    (h8 : rt ≤ 14) :
    (7 ≤ (adrSettle wl psf ptx m fl cnt rs rt).1 ∧
      (adrSettle wl psf ptx m fl cnt rs rt).1 ≤ 12) ∧
    (0 ≤ (adrSettle wl psf ptx m fl cnt rs rt).2.1 ∧
      (adrSettle wl psf ptx m fl cnt rs rt).2.1 ≤ 16) := by
  obtain ⟨hs7, hsle⟩ := ns_adr_sf_bounds psf ptx m h1
  obtain ⟨ht0, ht16⟩ := ns_adr_tx_bounds psf ptx m h3 h4
  simp only [adrSettle]
  split_ifs with hw hf hesc
  · exact ⟨⟨by omega, by omega⟩, ⟨ht0, ht16⟩⟩
  · exact ⟨⟨by omega, by omega⟩, ⟨ht0, ht16⟩⟩
  · exact ⟨⟨by omega, by omega⟩, ⟨ht0, ht16⟩⟩
  · exact ⟨⟨h5, h6⟩, ⟨show (0 : ℤ) ≤ rt by omega, show rt ≤ 16 by omega⟩⟩

/-- Witness for C6's amended theorem at a concrete in-range state. -/
theorem adr_state_ranges_witness :
    (7 ≤ (adrSettle 20 7 14 0 true 0 7 14).1 ∧
      (adrSettle 20 7 14 0 true 0 7 14).1 ≤ 12) ∧
    (0 ≤ (adrSettle 20 7 14 0 true 0 7 14).2.1 ∧
      (adrSettle 20 7 14 0 true 0 7 14).2.1 ≤ 16) :=
  adr_state_ranges 20 7 14 0 true 0 7 14 (by norm_num) (by norm_num)
    (by norm_num) (by norm_num) (by norm_num) (by norm_num) (by norm_num)
    (by norm_num)

/-- C5 counterexample: before the SNR window has reached its full size of
20 (window length 19 here), a 17th consecutive failed transmission with the
failure counter at 16 leaves the counter untouched at 16 and does not step
the rate: `transmit` reaches the `adr_ack_cnt` fallback only inside the
`len(snr_history) == 20` branch, so the fallback is not always active as
claimed — the rate is simply redrawn at random (7 here). -/
theorem adr_fallback_bootstrap_cex :
    adrSettle 19 10 14 0 true 16 7 14 = (7, 14, 16) := by
  norm_num [adrSettle, enableAdr]

/-- C5 amended: the fallback escalation runs only when ADR is enabled and
the SNR window has exactly reached its full size of 20.  Then, on a lost or
collided transmission that takes the failure counter from 16 (the
`adr_ack_limit`) to 17 while the controller's recommended rate is below 12,
the rate is the recommendation incremented by exactly one step; any
successful, uncollided reception resets the counter to zero. -/
theorem adr_fallback_escalation (psf ptx : ℤ) (m : ℚ) (cnt : ℕ) (rs rt : ℤ)
    (hcnt : cnt = adr_ack_limit)
    (hsf : (ns_adr_algorithm psf ptx m).1 < 12) :
    (adrSettle 20 psf ptx m true cnt rs rt).1 =
      (ns_adr_algorithm psf ptx m).1 + 1 ∧
    (adrSettle 20 psf ptx m true cnt rs rt).2.2 = cnt + 1 ∧
    (adrSettle 20 psf ptx m false cnt rs rt).2.2 = 0 := by
  have hesc : adr_ack_limit < cnt + 1 ∧ (ns_adr_algorithm psf ptx m).1 < 12 :=
    ⟨by omega, hsf⟩
  refine ⟨?_, ?_, ?_⟩ <;>
    simp only [adrSettle, enableAdr, eq_self_iff_true, and_self, and_true,
      true_and, Bool.false_eq_true, if_true, if_false, if_pos hesc]

/-- Witness for C5's amended theorem at rate 7, power 14, mean SNR exactly
at the requirement (the controller recommends no change, so the fallback
steps the rate from 7 to 8 on the 17th consecutive failure). -/
theorem adr_fallback_escalation_witness :
    (16 : ℕ) = adr_ack_limit ∧ (ns_adr_algorithm 7 14 (-15/2)).1 < 12 ∧
    ((adrSettle 20 7 14 (-15/2) true 16 7 14).1 =
      (ns_adr_algorithm 7 14 (-15/2)).1 + 1 ∧
    (adrSettle 20 7 14 (-15/2) true 16 7 14).2.2 = 16 + 1 ∧
    (adrSettle 20 7 14 (-15/2) false 16 7 14).2.2 = 0) := by
  have hsf : (ns_adr_algorithm 7 14 (-15/2)).1 < 12 := by
    norm_num [ns_adr_algorithm, snr_threshold, sfLoop, txDownLoop, txUpLoop,
      sfLoopF, txDownLoopF, txUpLoopF, List.getD]
  exact ⟨rfl, hsf, adr_fallback_escalation 7 14 (-15/2) 16 7 14 rfl hsf⟩

/-- Transmit-current table in milliamps (`TX` in the source), indexed by
transmit power level from −2 to +20 dBm via `TX[txpow + 2]`. -/
def TX : List ℕ :=
  [22, 22, 22, 23,
   24, 24, 24, 25, 25, 25, 25, 26, 31, 32, 34, 35, 44,
   82, 85, 90,
   105, 115, 125]

/-- C10 counterexample to the claim's description of the table: `TX` has 23
entries (covering −2 … +20 dBm), not 22. -/
theorem TX_table_not_22 : ¬ (TX.length = 22) := by
  decide

/-- C10 amended: every transmit power reachable from the valid range — the
initial 14, bootstrap draws in [2,14], and any controller output from such
a state — lies in [0,16], so the energy computation's lookup `TX[txpow+2]`
into the 23-entry current table is always within bounds. -/
theorem txpow_energy_index_safe (sf tx : ℤ) (m : ℚ) (h0 : 0 ≤ tx)
    (h16 : tx ≤ 16) :
    0 ≤ (ns_adr_algorithm sf tx m).2 ∧ (ns_adr_algorithm sf tx m).2 ≤ 16 ∧
    ((ns_adr_algorithm sf tx m).2 + 2).toNat < TX.length := by
  obtain ⟨ha, hb⟩ := ns_adr_tx_bounds sf tx m h0 h16
  have hlen : TX.length = 23 := by decide
  rw [hlen]
  exact ⟨ha, hb, by omega⟩

/-- Witness for C10's amended theorem at the initial power 14. -/
theorem txpow_energy_index_safe_witness :
    0 ≤ (ns_adr_algorithm 12 14 0).2 ∧ (ns_adr_algorithm 12 14 0).2 ≤ 16 ∧
    ((ns_adr_algorithm 12 14 0).2 + 2).toNat < TX.length :=
  txpow_energy_index_safe 12 14 0 (by norm_num) (by norm_num)
